import Mathlib

/-!
Verification of the zzz_scraper repository's Content Discovery and Archive
Acquisition Engine against its natural-language specification.

The definitions below are a shallow embedding, translated from the Python
sources:
  * `src/downloader/MinasDownloader.py` — CSV cell normalization
    (`_norm_cell`, `_norm_outer_quotes`), `sanitize_filename`, the batch
    row processing (`_process_csv_row`), the zip extraction / flattening
    logic of `_zip_current_path`, and the zip-progress polling loop
    (`_poll`).
  * `src/scraper/MinasScraper.py` — the link/password extractor
    (`_extract_from_text` with its compiled URL and password regular
    expression lists), the per-row extraction pipeline of `run`, the
    post-id regex, and the CSV merge of `_write_csv`.

Modelling conventions:
  * Python strings are Lean `String`s; regular-expression searches are
    hand-translated leftmost searches over `List Char` with the same
    greedy/backtracking behaviour as the source patterns.
  * Character classes are translated at ASCII fidelity: Python's `\w`,
    `\s`, `[a-zA-Z0-9]` become ASCII word/whitespace/alphanumeric tests
    (Lean's `Char.isWhitespace`); every concrete input used in a theorem
    stays within that common fragment.
  * Filesystem state is a list of paths (lists of name segments); network
    and browser results are passed in as explicit oracle arguments, and
    the effectful control flow of the source is mirrored as data
    (decision enums, "stage consulted" flags, emitted progress lines).
  * Fallible operations return `Option`; a caught Python exception is a
    `none`.
-/

/-! ## String utilities (MinasDownloader.py lines 64-84) -/

/-- Test for the two quote characters Python strips in `_norm_cell` and
`_norm_outer_quotes` (double quote and apostrophe, written via its code
point to keep the embedding plain ASCII). -/
def isQuoteChar (c : Char) : Bool :=
  (c == '"') || (c == Char.ofNat 39)

/-- Drop leading characters satisfying `p` from a character list. -/
def trimLeftBy (p : Char → Bool) (l : List Char) : List Char :=
  l.dropWhile p

/-- Drop trailing characters satisfying `p` from a character list. -/
def trimRightBy (p : Char → Bool) (l : List Char) : List Char :=
  (l.reverse.dropWhile p).reverse

/-- Python's `str.strip()` (ASCII whitespace) on a character list. -/
def pyStripChars (l : List Char) : List Char :=
  trimRightBy Char.isWhitespace (trimLeftBy Char.isWhitespace l)

/-- Python's `str.strip()` on a string. -/
def pyStrip (s : String) : String :=
  String.mk (pyStripChars s.data)

/-- Python's `v.strip('\"\'')`: remove any run of quote characters from
both ends (whitespace is not touched by this step). -/
def stripQuoteEnds (s : String) : String :=
  String.mk (trimRightBy isQuoteChar (trimLeftBy isQuoteChar s.data))

/-- The shared middle step of `_norm_cell` and `_norm_outer_quotes`
(lines 72-75 and 82-84): when the stripped value has length at least two
and identical quote characters at both ends, drop that pair and strip
again. -/
def pairStripped (s : List Char) : List Char :=
  if 2 ≤ s.length ∧ s.headD ' ' = s.getLastD ' ' ∧ isQuoteChar (s.headD ' ') = true then
    pyStripChars ((s.drop 1).dropLast)
  else s

/-- `_norm_outer_quotes` (MinasDownloader.py lines 80-84): strip
whitespace, then strip a single pair of matching outer quotes (either
kind), re-stripping whitespace exposed by the removal. -/
def normOuterQuotes (v : String) : String :=
  String.mk (pairStripped (pyStripChars v.data))

/-- `_norm_cell` (MinasDownloader.py lines 69-77): like
`_norm_outer_quotes` but additionally strips stray quote characters
(matched or not) from both ends afterwards. -/
def normCell (v : String) : String :=
  String.mk (trimRightBy isQuoteChar (trimLeftBy isQuoteChar (pairStripped (pyStripChars v.data))))

/-- `_norm_outer_quotes` applied to a possibly missing CSV cell
(`None` becomes the empty string, as in the Python `str | None` handling). -/
def normOuterQuotesO (v : Option String) : String :=
  normOuterQuotes (v.getD "")

/-- `_norm_cell` applied to a possibly missing CSV cell. -/
def normCellO (v : Option String) : String :=
  normCell (v.getD "")

/-- Characters replaced by `sanitize_filename`
(MinasDownloader.py line 66): backslash, slash, colon, asterisk,
question mark, double quote. The commented-out variant on line 65 would
also have replaced angle brackets and the pipe; the live code does not. -/
def badChar (c : Char) : Bool :=
  (c == '\\') || (c == '/') || (c == ':') || (c == '*') || (c == '?') || (c == '"')

/-- The substituted-and-stripped character list underlying
`sanitize_filename`. -/
def sanitizeCore (name : String) : List Char :=
  pyStripChars (name.data.map (fun c => if badChar c then '_' else c))

/-- `sanitize_filename` (MinasDownloader.py lines 64-66):
`re.sub(r"[\\/:*?\"]", "_", name).strip() or "untitled"` (the character
class substitution is a per-character map). -/
def sanitizeFilename (name : String) : String :=
  if sanitizeCore name = [] then "untitled" else String.mk (sanitizeCore name)

/-- Sanitization as the claim describes it: each occurrence of backslash,
slash, colon, asterisk, question mark and double quote becomes an
underscore (angle brackets and pipe untouched), surrounding whitespace is
stripped, and an empty result becomes the literal `untitled`. Stated
separately from `sanitizeFilename` so the two can be compared. -/
def claimSanitizeCore (name : String) : List Char :=
  pyStripChars (name.data.map
    (fun c => if c ∈ ['\\', '/', ':', '*', '?', '"'] then '_' else c))

/-- Sanitization packaged as the claim states it. -/
def claimSanitize (name : String) : String :=
  if claimSanitizeCore name = [] then "untitled" else String.mk (claimSanitizeCore name)

/-! ## Batch CSV row processing (MinasDownloader.py lines 372-401) -/

/-- One row of the input CSV as handed to `_process_csv_row`: each
recognized column is present (`some`) or absent (`none`). -/
structure CsvRow where
  post_name : Option String
  title : Option String
  name : Option String
  minas_link : Option String
  url : Option String
  link : Option String
  minas_pwd : Option String
  password : Option String
  passwd : Option String
  post_time : Option String
deriving DecidableEq, Repr

/-- Python's `row.get(a) or row.get(b) or row.get(c)` chain: the first
cell that is present and truthy (non-empty); `none` when every cell is
missing or empty. -/
def pyOrChain (l : List (Option String)) : Option String :=
  l.findSome? (fun o => o.bind (fun s => if s = "" then none else some s))

/-- Display name of a row (`_process_csv_row` line 373):
first truthy of `post_name`/`title`/`name`, normalized with
`_norm_outer_quotes`. -/
def rowPostName (r : CsvRow) : String :=
  normOuterQuotesO (pyOrChain [r.post_name, r.title, r.name])

/-- Share URL of a row (line 374): first truthy of
`minas_link`/`url`/`link`, normalized with `_norm_cell`. -/
def rowUrl (r : CsvRow) : String :=
  normCellO (pyOrChain [r.minas_link, r.url, r.link])

/-- Password of a row (line 375): first truthy of
`minas_pwd`/`password`/`passwd`, normalized with `_norm_cell`. -/
def rowPwd (r : CsvRow) : String :=
  normCellO (pyOrChain [r.minas_pwd, r.password, r.passwd])

/-- Raw `post_time` cell of a row (line 376), normalized with
`_norm_cell`. -/
def rowPostTime (r : CsvRow) : String :=
  normCellO (pyOrChain [r.post_time])

/-- Timestamp normalization (`_process_csv_row` lines 379-388): a
non-empty value of length at least 10 whose characters 4 and 7 are both
dashes or both slashes is cut to its first 10 characters with separators
turned into dots; anything else normalizes to the empty string. -/
def normPostTime (post_time : String) : String :=
  if post_time = "" then ""
  else if 10 ≤ post_time.data.length ∧
      ((post_time.data.getD 4 ' ' = '-' ∧ post_time.data.getD 7 ' ' = '-') ∨
       (post_time.data.getD 4 ' ' = '/' ∧ post_time.data.getD 7 ' ' = '/')) then
    String.mk ((post_time.data.take 10).map (fun c => if c = '-' ∨ c = '/' then '.' else c))
  else ""

/-- Canonical output folder name of a row (`_process_csv_row` lines
394-395): `norm_post_time ++ " " ++ post_name` when a timestamp parsed,
else just the name, passed through `sanitize_filename`. -/
def targetFolderName (r : CsvRow) : String :=
  let nt := normPostTime (rowPostTime r)
  let folder := if nt ≠ "" then nt ++ " " ++ rowPostName r else rowPostName r
  sanitizeFilename folder

/-- Outcome of `_process_csv_row` for one row: skip for a missing field
(line 390), skip because the target directory already exists (line 396),
or proceed to acquisition (`_zip_current_path`, line 401). -/
inductive RowAction where
  | skipMissing
  | skipExists
  | acquire
deriving DecidableEq, Repr

/-- Control flow of `_process_csv_row` (lines 372-401). `dirExists` is
the filesystem oracle for `target_dir.exists()`, applied to the sanitized
folder name under the batch output root. -/
def processCsvRow (r : CsvRow) (dirExists : String → Bool) : RowAction :=
  if rowUrl r = "" ∨ rowPwd r = "" ∨ rowPostName r = "" then .skipMissing
  else if dirExists (targetFolderName r) then .skipExists
  else .acquire

/-- Whether a row action performs any network or browser activity:
`_zip_current_path` (the only network/browser work in batch mode) is
invoked exactly on the `acquire` action. -/
def rowDoesNetwork : RowAction → Bool
  | .acquire => true
  | _ => false

/-! ## Claim-side and amended-side row field readings (for C9) -/

/-- The first cell that is present at all (the claim's literal
"first present wins" reading, which ignores whether the cell is empty). -/
def firstPresent (l : List (Option String)) : Option String :=
  l.findSome? id

/-- URL field as the claim literally describes it: first present among
`minas_link`/`url`/`link`, trimmed, with exactly one matching pair of
outer quotes stripped. -/
def claimUrlField (r : CsvRow) : String :=
  normOuterQuotesO (firstPresent [r.minas_link, r.url, r.link])

/-- Amended normalization for URL/password/post_time cells: trim, strip
one matching pair of outer quotes, then strip any remaining stray
leading/trailing quote characters. -/
def amendedCellNorm (v : Option String) : String :=
  stripQuoteEnds (normOuterQuotesO v)

/-- Amended URL field: first column with a non-empty value, normalized
with `amendedCellNorm`. -/
def amendedUrlField (r : CsvRow) : String :=
  amendedCellNorm (pyOrChain [r.minas_link, r.url, r.link])

/-- Amended password field. -/
def amendedPwdField (r : CsvRow) : String :=
  amendedCellNorm (pyOrChain [r.minas_pwd, r.password, r.passwd])

/-- Amended post_time field. -/
def amendedPostTimeField (r : CsvRow) : String :=
  amendedCellNorm (pyOrChain [r.post_time])

/-- Amended display-name field: first column with a non-empty value,
trimmed with exactly one matching pair of outer quotes stripped (no
stray-quote stripping for the name). -/
def amendedNameField (r : CsvRow) : String :=
  normOuterQuotesO (pyOrChain [r.post_name, r.title, r.name])

/-! ## Share record CSV merge (MinasScraper.py lines 324-348) -/

/-- One row of the metafile CSV, restricted to its fixed columns
`post_time, post_name, post_url, minas_link, minas_pwd`. -/
structure MetaRow where
  post_time : String
  post_name : String
  post_url : String
  minas_link : String
  minas_pwd : String
deriving DecidableEq, Repr

/-- `_write_csv` line 340: the set of non-empty stripped post URLs of the
rows produced by the current run. -/
def newUrlSet (rows : List MetaRow) : List String :=
  rows.filterMap (fun r =>
    if pyStrip r.post_url = "" then none else some (pyStrip r.post_url))

/-- `_write_csv` line 341: new rows first, then every previously existing
row whose stripped post URL is not among the new rows' URLs. -/
def mergedRows (rows existing : List MetaRow) : List MetaRow :=
  rows ++ existing.filter (fun r => decide (pyStrip r.post_url ∉ newUrlSet rows))

/-! ## Regex translation helpers (MinasScraper.py lines 62-78) -/

/-- ASCII alphanumeric test (`[a-zA-Z0-9]`). -/
def isAsciiAlnum (c : Char) : Bool :=
  c.isAlpha || c.isDigit

/-- ASCII word character (`\w`, ASCII fragment). -/
def isWordChar (c : Char) : Bool :=
  c.isAlpha || c.isDigit || (c == '_')

/-- Non-whitespace (`\S`). -/
def isNonSpace (c : Char) : Bool :=
  !c.isWhitespace

/-- Consume a literal, case-sensitively; return the rest on success. -/
def dropLit (lit : List Char) (l : List Char) : Option (List Char) :=
  if l.take lit.length = lit then some (l.drop lit.length) else none

/-- Case-insensitive list comparison (for patterns compiled with `re.I`). -/
def lowerEq (a b : List Char) : Bool :=
  a.map Char.toLower == b.map Char.toLower

/-- Consume a literal case-insensitively; return the rest on success. -/
def dropLitCI (lit : List Char) (l : List Char) : Option (List Char) :=
  if lowerEq (l.take lit.length) lit then some (l.drop lit.length) else none

/-- Consume an optional literal, case-insensitively (for `(www\.)?`;
the following mandatory literal never starts with the same character, so
the greedy choice is deterministic). -/
def optLitCI (lit : List Char) (l : List Char) : List Char :=
  match dropLitCI lit l with
  | some r => r
  | none => l

/-- Consume `https?://` case-insensitively (the optional `s` is
deterministic because `:` is not `s`). -/
def afterScheme (l : List Char) : Option (List Char) :=
  (dropLitCI "http".data l).bind (fun r =>
    let r2 := match r with
      | c :: t => if c.toLower == 's' then t else r
      | [] => r
    dropLitCI "://".data r2)

/-- Consume one-or-more characters of a class, greedily (`[..]+` with
nothing of the class allowed to follow in the pattern). -/
def takeClass1 (p : Char → Bool) (l : List Char) : Option (List Char) :=
  let t := l.takeWhile p
  if t = [] then none else some (l.drop t.length)

/-- Leftmost search for a consuming matcher: try every start position
from the left; on the first success return the consumed characters
(the regex `group(0)`). -/
def scanG0 (m : List Char → Option (List Char)) : List Char → Option (List Char)
  | [] => (m []).map (fun _ => [])
  | l@(_ :: t) =>
    match m l with
    | some rest => some (l.take (l.length - rest.length))
    | none => scanG0 m t

/-- Leftmost search returning the matcher's own payload (used for the
password patterns, whose payload is the capture-group list). -/
def scanFirst {α : Type} (m : List Char → Option α) : List Char → Option α
  | [] => m []
  | l@(_ :: t) =>
    match m l with
    | some a => some a
    | none => scanFirst m t

/-! ## The eight share-host URL patterns (`_url_patterns`, lines 63-72).
All are compiled with `re.I`; each matcher consumes at one position. -/

/-- `https?://minas\.mihoyo\.com/\S+` -/
def urlPat1At (l : List Char) : Option (List Char) :=
  (afterScheme l).bind (fun r =>
    (dropLitCI "minas.mihoyo.com/".data r).bind (takeClass1 isNonSpace))

/-- `https?://pan\.baidu\.com/s/[a-zA-Z0-9\-_=]+` -/
def urlPat2At (l : List Char) : Option (List Char) :=
  (afterScheme l).bind (fun r =>
    (dropLitCI "pan.baidu.com/s/".data r).bind
      (takeClass1 (fun c => isAsciiAlnum c || (c == '-') || (c == '_') || (c == '='))))

/-- `https?://(www\.)?lanzou[inx]?\.com/[a-zA-Z0-9\-_]+` -/
def urlPat3At (l : List Char) : Option (List Char) :=
  (afterScheme l).bind (fun r =>
    let r1 := optLitCI "www.".data r
    (dropLitCI "lanzou".data r1).bind (fun r2 =>
      let r3 := match r2 with
        | c :: t => if c.toLower == 'i' || c.toLower == 'n' || c.toLower == 'x' then t else r2
        | [] => r2
      (dropLitCI ".com/".data r3).bind
        (takeClass1 (fun c => isAsciiAlnum c || (c == '-') || (c == '_')))))

/-- `https?://cloud\.189\.cn/t/[a-zA-Z0-9]+` -/
def urlPat4At (l : List Char) : Option (List Char) :=
  (afterScheme l).bind (fun r =>
    (dropLitCI "cloud.189.cn/t/".data r).bind (takeClass1 isAsciiAlnum))

/-- `https?://(www\.)?123pan\.com/s/[a-zA-Z0-9\-_]+` -/
def urlPat5At (l : List Char) : Option (List Char) :=
  (afterScheme l).bind (fun r =>
    let r1 := optLitCI "www.".data r
    (dropLitCI "123pan.com/s/".data r1).bind
      (takeClass1 (fun c => isAsciiAlnum c || (c == '-') || (c == '_'))))

/-- `https?://share\.weiyun\.com/[a-zA-Z0-9]+` -/
def urlPat6At (l : List Char) : Option (List Char) :=
  (afterScheme l).bind (fun r =>
    (dropLitCI "share.weiyun.com/".data r).bind (takeClass1 isAsciiAlnum))

/-- Tail of pattern 7 after the backtracking star: `mihoyo\.[\w\.]+/\S+`
(the `[\w\.]+` is effectively possessive because `/` is outside the
class). -/
def pat7Rest (r2 : List Char) : Option (List Char) :=
  (dropLitCI "mihoyo.".data r2).bind (fun r3 =>
    (takeClass1 (fun c => isWordChar c || (c == '.')) r3).bind (fun r4 =>
      match r4 with
      | c :: t => if c == '/' then takeClass1 isNonSpace t else none
      | [] => none))

/-- Backtracking for `[\w\-\.]*` in pattern 7: try the longest class
prefix first, shrinking until the tail matches. -/
def pat7TryFrom (r : List Char) : Nat → Option (List Char)
  | 0 => pat7Rest r
  | Nat.succ k =>
    match pat7Rest (r.drop (Nat.succ k)) with
    | some rest => some rest
    | none => pat7TryFrom r k

/-- `https?://[\w\-\.]*mihoyo\.[\w\.]+/\S+` -/
def urlPat7At (l : List Char) : Option (List Char) :=
  (afterScheme l).bind (fun r =>
    pat7TryFrom r ((r.takeWhile (fun c => isWordChar c || (c == '-') || (c == '.'))).length))

/-- Does a non-space run contain `minas` (case-insensitively) with at
least one further character after it? This is exactly when
`\S*minas\S+` can match inside the run. -/
def hasMinasProper : List Char → Bool
  | [] => false
  | l@(_ :: t) =>
    (lowerEq (l.take 5) "minas".data && decide (5 < l.length)) || hasMinasProper t

/-- `https?://\S*minas\S+`: after the scheme, the greedy star and plus
make the match consume the entire non-space run, provided the run
contains `minas` followed by at least one more non-space character. -/
def urlPat8At (l : List Char) : Option (List Char) :=
  (afterScheme l).bind (fun r =>
    let run := r.takeWhile isNonSpace
    if hasMinasProper run then some (r.drop run.length) else none)

/-- `self._url_patterns`, in declaration order. -/
def urlPatterns : List (List Char → Option (List Char)) :=
  [urlPat1At, urlPat2At, urlPat3At, urlPat4At, urlPat5At, urlPat6At, urlPat7At, urlPat8At]

/-- The URL loop of `_extract_from_text` (lines 216-220): patterns tried
in order, the first one that matches anywhere supplies `group(0)` as the
link, and the loop breaks. -/
def urlSearch (text : List Char) : Option (List Char) :=
  urlPatterns.findSome? (fun p => scanG0 p text)

/-! ## The four password patterns (`_pwd_patterns`, lines 73-78).
Patterns 1-3 are case-sensitive Chinese labels (the spec's bilingual
"extraction code" / "password" / "access code"); pattern 4 is the generic
`pass(code)?` label with `re.I`. Each matcher returns the regex
capture-group list of a match at one position. -/

/-- Separator class `[:：\s]` (ASCII/colon fragment of `\s`). -/
def isSepChar (c : Char) : Bool :=
  (c == ':') || (c == '：') || c.isWhitespace

/-- `[:：\s]*([a-zA-Z0-9]{3,20})`: skip separators, then greedily take up
to 20 alphanumerics, requiring at least 3. -/
def sepTok (l : List Char) : Option (List Char) :=
  let r := l.dropWhile isSepChar
  let tok := (r.takeWhile isAsciiAlnum).take 20
  if tok.length < 3 then none else some tok

/-- `提取码[:：\s]*([a-zA-Z0-9]{3,20})` -/
def pwdPat1At (l : List Char) : Option (List (Option (List Char))) :=
  (dropLit "提取码".data l).bind (fun r => (sepTok r).map (fun tok => [some tok]))

/-- `密码[:：\s]*([a-zA-Z0-9]{3,20})` -/
def pwdPat2At (l : List Char) : Option (List (Option (List Char))) :=
  (dropLit "密码".data l).bind (fun r => (sepTok r).map (fun tok => [some tok]))

/-- `访问码[:：\s]*([a-zA-Z0-9]{3,20})` -/
def pwdPat3At (l : List Char) : Option (List (Option (List Char))) :=
  (dropLit "访问码".data l).bind (fun r => (sepTok r).map (fun tok => [some tok]))

/-- `pass(code)?[:：\s]*([a-zA-Z0-9]{3,20})` with `re.I`: group 1 is the
optional literal `code` as it appeared in the text, group 2 the token;
the greedy optional group backtracks when taking `code` prevents the
token from matching. -/
def pwdPat4At (l : List Char) : Option (List (Option (List Char))) :=
  (dropLitCI "pass".data l).bind (fun r =>
    match dropLitCI "code".data r with
    | some r2 =>
      match sepTok r2 with
      | some tok => some [some (r.take 4), some tok]
      | none => (sepTok r).map (fun tok => [none, some tok])
    | none => (sepTok r).map (fun tok => [none, some tok]))

/-- `self._pwd_patterns`, in declaration order. -/
def pwdPatterns : List (List Char → Option (List (Option (List Char)))) :=
  [pwdPat1At, pwdPat2At, pwdPat3At, pwdPat4At]

/-- The first non-empty capture group of a match
(`for g in m2.groups(): if g: ...`). -/
def firstNonEmptyGroup (gs : List (Option (List Char))) : Option (List Char) :=
  gs.findSome? (fun g => g.bind (fun t => if t = [] then none else some t))

/-- The password loop of `_extract_from_text` (lines 222-230): patterns
tried in order; the loop breaks at the first pattern that matches, using
that match's first non-empty capture group. -/
def pwdSearch (text : List Char) : Option (List Char) :=
  (pwdPatterns.findSome? (fun p => scanFirst p text)).bind firstNonEmptyGroup

/-- `_extract_from_text` (lines 213-231): find a link via the URL
patterns; only if a link was found, search the same text for a password. -/
def extractFromText (text : List Char) : Option (List Char) × Option (List Char) :=
  match urlSearch text with
  | none => (none, none)
  | some lnk => (some lnk, pwdSearch text)

/-- `_extract_from_text` on `String`s. -/
def extractFromTextS (s : String) : Option String × Option String :=
  let r := extractFromText s.data
  (r.1.map String.mk, r.2.map String.mk)

/-- `self._mihoyo_post_id` (`/zzz/article/(\d+)`, line 62) matched at one
position; the payload is capture group 1. -/
def postIdAt (l : List Char) : Option (List Char) :=
  (dropLit "/zzz/article/".data l).bind (fun r =>
    let ds := r.takeWhile Char.isDigit
    if ds = [] then none else some ds)

/-- `self._mihoyo_post_id.search(url)` with `m.group(1)` (run, lines
134-136): the post id derived from a target URL, when present. -/
def extractPostId (s : String) : Option String :=
  (scanFirst postIdAt s.data).map String.mk

/-! ## Per-row extraction pipeline (MinasScraper.py run, lines 130-163).
Network results (API payload extraction, DOM extraction, raw-text
extraction) are oracle arguments; a missing link/password is the empty
string, as in the source, which initialises both from the cache with
`or ""`. -/

/-- Python `a or b` on strings (with `or ""` collapsing a missing value
to the empty string). -/
def pyOrS (a b : String) : String :=
  if a = "" then b else a

/-- Stage 0 (lines 133-141): when a post id is derivable, the Miyoushe
API extraction runs; a non-empty API link replaces the link
unconditionally and supplies the password only if none is known yet. -/
def apiStageResult (cachedLink cachedPwd : String) (apiAvail : Bool)
    (apiLink apiPwd : String) : String × String :=
  if apiAvail then
    if apiLink ≠ "" then (apiLink, pyOrS cachedPwd apiPwd)
    else (cachedLink, cachedPwd)
  else (cachedLink, cachedPwd)

/-- Stage 1 (lines 143-150): only when the link is still missing, the
page is fetched and `_extract_from_soup` runs; a non-empty DOM link is
taken, and its password fills in only a missing password. -/
def soupStageResult (l p soupLink soupPwd : String) : String × String :=
  if l = "" then
    if soupLink ≠ "" then (soupLink, pyOrS p soupPwd) else (l, p)
  else (l, p)

/-- Stage 2 (lines 152-163): only when the link or the password is still
missing, `_extract_from_text` runs on the page's full text; each missing
component is filled from it. -/
def textStageResult (l p textLink textPwd : String) : String × String :=
  if l = "" ∨ p = "" then (pyOrS l textLink, pyOrS p textPwd) else (l, p)

/-- Result of one row of `run`, instrumented with which network stages
were consulted. -/
structure PipelineTrace where
  link : String
  pwd : String
  soupFetched : Bool
  textConsulted : Bool
deriving DecidableEq, Repr

/-- The per-row pipeline of `run` (lines 130-163): cached values, then
the API fast path (iff `self._mihoyo_post_id` matches the URL), then the
DOM fallback, then the raw-text fallback. -/
def runRowPipeline (url cachedLink cachedPwd apiLink apiPwd
    soupLink soupPwd textLink textPwd : String) : PipelineTrace :=
  let apiAvail := (extractPostId url).isSome
  let s0 := apiStageResult cachedLink cachedPwd apiAvail apiLink apiPwd
  let s1 := soupStageResult s0.1 s0.2 soupLink soupPwd
  let s2 := textStageResult s1.1 s1.2 textLink textPwd
  ⟨s2.1, s2.2, decide (s0.1 = ""), decide (s1.1 = "" ∨ s1.2 = "")⟩

/-! ## Archive materializer (MinasDownloader.py `_zip_current_path`,
lines 313-354). Archive members are the raw `namelist()` strings;
the filesystem under the extraction target is the list of extracted
paths, each a list of non-empty segments. -/

/-- Splitting a character list on `/` (Python `str.split('/')`). -/
def splitSlashChars : List Char → List (List Char)
  | [] => [[]]
  | c :: t =>
    if c = '/' then [] :: splitSlashChars t
    else
      match splitSlashChars t with
      | [] => [[c]]
      | seg :: rest => (c :: seg) :: rest

/-- `m.split('/')`. -/
def entrySegs (m : String) : List String :=
  (splitSlashChars m.data).map String.mk

/-- The path an entry occupies on disk, as non-empty segments. -/
def entryPath (m : String) : List String :=
  (entrySegs m).filter (fun s => s ≠ "")

/-- The element a member adds to the `roots` set (lines 316-324): its
first segment when it has several and the first is non-empty, the marker
`""` otherwise; empty member names are skipped. -/
def memberRootContrib (m : String) : Option String :=
  if m = "" then none
  else
    let parts := entrySegs m
    if 1 < parts.length ∧ parts.headD "" ≠ "" then some (parts.headD "")
    else some ""

/-- The `roots` set accumulated over all members. -/
def zipRoots (members : List String) : List String :=
  (members.filterMap memberRootContrib).dedup

/-- `has_single_root` (line 325) together with the root's name
(`next(iter(roots))`, line 341): `some F` exactly when the root marker
`""` is absent and exactly one root remains. -/
def singleRootName (members : List String) : Option String :=
  let rs := zipRoots members
  if "" ∈ rs then none
  else match rs with
    | [F] => some F
    | _ => none

/-- Paths created by `extractall` under the extraction target. -/
def zipEntryPaths (members : List String) : List (List String) :=
  (members.map entryPath).filter (fun p => decide (p ≠ []))

/-- The immediate children of the inner root folder after extraction
(`inner.iterdir()`, line 344): the distinct second segments, in first
appearance order. -/
def zipChildren (members : List String) : List String :=
  ((zipEntryPaths members).filterMap (fun p => (p.drop 1).head?)).dedup

/-- One `shutil.move(inner/c, target/c)` applied to a path: the prefix
`[F, c]` is lifted to `[c]`. -/
def moveUp (F c : String) (p : List String) : List String :=
  match p with
  | f :: x :: rest => if f = F ∧ x = c then x :: rest else p
  | _ => p

/-- The flattening loop (lines 344-345): move each child of the inner
root up into the target, in order. `shutil.move` raises when the
destination already exists, which happens exactly for a child itself
named `F` (the only pre-existing top-level entry of the target is `F`);
the exception aborts the whole extraction block. -/
def flattenLoop (F : String) : List String → List (List String) → Option (List (List String))
  | [], paths => some paths
  | c :: cs, paths =>
    if c = F then none
    else flattenLoop F cs (paths.map (moveUp F c))

/-- The effect of the whole flattening loop on one path, when it
succeeds: a path under a moved child loses the leading `F`. -/
def applyMoves (F : String) (cs : List String) (p : List String) : List String :=
  match p with
  | f :: x :: rest => if f = F ∧ x ∈ cs then x :: rest else p
  | _ => p

/-- The contents that were under the root folder `F`: for each entry
`F/rest` with non-empty `rest`, the path `rest` (the claim's description
of what the forced target should contain after flattening). -/
def contentsUnder (F : String) (members : List String) : List (List String) :=
  (zipEntryPaths members).filterMap (fun p =>
    match p with
    | f :: rest => if f = F ∧ rest ≠ [] then some rest else none
    | [] => none)

/-- Which extraction target `_zip_current_path` selected (lines
327-335): the forced directory, the output root itself (single root, no
forced dir), or a fresh subdirectory named after the archive stem. -/
inductive ExtractTargetKind where
  | forcedDir
  | outRoot
  | subDir
deriving DecidableEq, Repr

/-- The extraction-and-flattening block (lines 314-349), up to but not
including the `dest.unlink()`: `none` when the block raises (bad
archive or a failed flattening move), otherwise the chosen target and
the final paths under it. The best-effort `rmdir` removes the emptied
inner folder from the result. -/
def extractPlan (members : List String) (forced : Bool) : Option (ExtractTargetKind × List (List String)) :=
  let paths := zipEntryPaths members
  if forced then
    match singleRootName members with
    | some F =>
      match flattenLoop F (zipChildren members) paths with
      | some ps => some (.forcedDir, ps.filter (fun p => decide (p ≠ [F])))
      | none => none
    | none => some (.forcedDir, paths)
  else if (singleRootName members).isSome then some (.outRoot, paths)
  else some (.subDir, paths)

/-- Result of the unzip-and-clean section: what was extracted (if
anything) and whether the archive file was deleted. -/
structure MaterializeResult where
  extracted : Option (ExtractTargetKind × List (List String))
  archiveDeleted : Bool
deriving DecidableEq, Repr

/-- The try/except around extraction (lines 313-354): when the archive
opens and the block succeeds, `dest.unlink()` runs; when anything in the
block raises, the exception is caught (and logged) and the archive file
stays. `zipOk` is false when opening/reading the archive itself raises. -/
def materialize (zipOk : Bool) (members : List String) (forced : Bool) : MaterializeResult :=
  if zipOk then
    match extractPlan members forced with
    | some tp => ⟨some tp, true⟩
    | none => ⟨none, false⟩
  else ⟨none, false⟩

/-! ## Zip progress polling (MinasDownloader.py `_poll`, lines 248-287).
One poll response, after the JSON field fallbacks of lines 266-270. -/

/-- One decoded progress response (`zipped`/`done`, `total`/`count`,
`failed`, `canceled`, all defaulted to 0). -/
structure ZipResp where
  zipped : Nat
  total : Nat
  failed : Nat
  canceled : Nat
deriving DecidableEq, Repr

/-- Line 271: `pct = int((zipped * 100) / total) if total else 0`
(natural division floors, as Python `int` truncates the non-negative
quotient). -/
def pollPct (r : ZipResp) : Nat :=
  if r.total ≠ 0 then r.zipped * 100 / r.total else 0

/-- Lines 275-280: after printing, the poll loop stops on a canceled
flag, a failed flag, or completion (`total and zipped >= total`). -/
def pollTerminal (r : ZipResp) : Bool :=
  if r.canceled ≠ 0 then true
  else if r.failed ≠ 0 then true
  else if r.total ≠ 0 ∧ r.total ≤ r.zipped then true
  else false

/-- The percent values printed by `_poll` over a sequence of responses,
starting from the last printed percent (`none` models the initial
`last_pct = -1`): each response's percent is printed iff it differs from
the previous one (line 272), then the terminal checks run. Responses
with no decodable body (`if not got`) are simply absent from the list. -/
def pollRun : Option Nat → List ZipResp → List Nat
  | _, [] => []
  | last, r :: rs =>
    let pct := pollPct r
    let emitted := if last = some pct then ([] : List Nat) else [pct]
    if pollTerminal r then emitted
    else emitted ++ pollRun (some pct) rs

/-! ## Concrete inputs used by witnesses -/

/-- A fully populated batch CSV row. -/
def sampleRow : CsvRow :=
  ⟨some "Calendar Wallpaper", none, none,
   some "https://minas.mihoyo.com/d/97936e3e62a949b2930d/", none, none,
   some "zzzbz2025", none, none, some "2025-09-01"⟩

/-- The batch row exhibiting the C9 divergences: `minas_link` present
but empty, `url` carrying stray outer quotes. -/
def quirkRow : CsvRow :=
  ⟨none, some "T", none,
   some "", some "''abc", none,
   some "pw", none, none, none⟩

/-- Text containing a share link, a labeled extraction code and a
generic passcode. -/
def exampleText : String :=
  "https://minas.mihoyo.com/d/abc 提取码: ABC123 passcode: XYZ789"

/-- Text containing a share link and only the second label (密码). -/
def exampleText2 : String :=
  "https://minas.mihoyo.com/d/q 密码: abc9"

/-- Three new metafile rows (urls u1, u2, u3). -/
def demoNewRows : List MetaRow :=
  [⟨"2025.01.01", "n1", "u1", "l1new", "p1new"⟩,
   ⟨"2025.01.02", "n2", "u2", "l2new", "p2new"⟩,
   ⟨"2025.01.03", "n3", "u3", "l3new", "p3new"⟩]

/-- Ten existing metafile rows; e9 and e10 overlap the new urls u1, u2. -/
def demoExistingRows : List MetaRow :=
  [⟨"t1", "a1", "e1", "l1", "q1"⟩, ⟨"t2", "a2", "e2", "l2", "q2"⟩,
   ⟨"t3", "a3", "e3", "l3", "q3"⟩, ⟨"t4", "a4", "e4", "l4", "q4"⟩,
   ⟨"t5", "a5", "e5", "l5", "q5"⟩, ⟨"t6", "a6", "e6", "l6", "q6"⟩,
   ⟨"t7", "a7", "e7", "l7", "q7"⟩, ⟨"t8", "a8", "e8", "l8", "q8"⟩,
   ⟨"t9", "a9", "u1", "l9old", "q9"⟩, ⟨"t10", "a10", "u2", "l10old", "q10"⟩]

/-- A small archive with the single root `F`. -/
def demoMembers : List String :=
  ["F/", "F/a.txt", "F/sub/b.txt"]

/-! ## Shared helper lemmas -/

/-- Splitting a list's length over a Boolean predicate and its negation. -/
theorem length_filter_split {α : Type} (l : List α) (p : α → Bool) :
    (l.filter p).length + (l.filter (fun x => !(p x))).length = l.length := by
  induction l with
  | nil => rfl
  | cons a t ih =>
    by_cases h : p a = true <;>
      simp only [List.filter_cons, h, Bool.not_true, Bool.not_false, if_pos, if_neg,
        List.length_cons, Bool.false_eq_true, not_false_eq_true, ite_true, ite_false] <;>
      omega

/-! ## C10 — sanitize_filename -/

/-- C10: for every input string, `sanitize_filename` returns a non-empty
string, and it behaves exactly as described: the six characters
backslash, slash, colon, asterisk, question mark and double quote each
become an underscore (angle brackets and pipe untouched), surrounding
whitespace is stripped, and an empty result is replaced by the literal
`untitled`. -/
theorem claim_C10_sanitize_nonempty_and_spec (s : String) :
    sanitizeFilename s ≠ "" ∧ sanitizeFilename s = claimSanitize s := by
  have hcore : sanitizeCore s = claimSanitizeCore s := by
    have hfun : (fun c => if badChar c then '_' else c)
        = (fun c => if c ∈ ['\\', '/', ':', '*', '?', '"'] then '_' else c) := by
      funext c
      have hiff : badChar c = true ↔ c ∈ ['\\', '/', ':', '*', '?', '"'] := by
        simp [badChar, List.mem_cons, or_assoc]
      by_cases h : badChar c = true
      · rw [if_pos h, if_pos (hiff.mp h)]
      · rw [if_neg h, if_neg (fun hm => h (hiff.mpr hm))]
    unfold sanitizeCore claimSanitizeCore
    rw [hfun]
  constructor
  · unfold sanitizeFilename
    split
    · decide
    · next h =>
      intro heq
      exact h (by simpa using congrArg String.data heq)
  · unfold sanitizeFilename claimSanitize
    rw [hcore]

/-! ## C9 — input CSV field selection and cell normalization -/

/-- C9 counterexample: on a row whose `minas_link` cell is present but
empty and whose `url` cell is `''abc`, the code takes the `url` cell
(Python `or` skips the falsy empty `minas_link`) and strips the stray
unmatched quotes, yielding `abc`; the claim's reading ("first present
wins", exactly one matching pair stripped) yields the empty string (from
the present `minas_link`) — and even applied to the `url` cell it would
keep `''abc`. So the claim as stated is false on this row. -/
theorem claim_C9_counterexample :
    rowUrl quirkRow = "abc" ∧ claimUrlField quirkRow = "" ∧
    normOuterQuotes "''abc" = "''abc" ∧ rowUrl quirkRow ≠ claimUrlField quirkRow := by
  refine ⟨by decide, by decide, by decide, by decide⟩

/-- C9 amended: each field is taken from the first recognized column
with a non-empty raw value; the display name is trimmed with exactly one
matching pair of outer quote characters stripped; the share URL, the
password and `post_time` are additionally stripped of any remaining
stray leading/trailing quote characters, matched or not. -/
theorem claim_C9_field_normalization (r : CsvRow) :
    rowPostName r = amendedNameField r ∧
    rowUrl r = amendedUrlField r ∧
    rowPwd r = amendedPwdField r ∧
    rowPostTime r = amendedPostTimeField r :=
  ⟨rfl, rfl, rfl, rfl⟩

/-! ## C1 — batch skip rule -/

/-- C1: for every batch CSV row, when the sanitized output directory
computed from (normalized post timestamp, display name) already exists,
`_process_csv_row` returns before `_zip_current_path` — the only
network/browser activity in batch mode — is ever invoked: the row does
no network or browser work, so a second run over the same input does
zero network/browser work for that target. -/
theorem claim_C1_existing_dir_skips_network (r : CsvRow) (dirExists : String → Bool)
    (h : dirExists (targetFolderName r) = true) :
    rowDoesNetwork (processCsvRow r dirExists) = false := by
  unfold processCsvRow
  split
  · rfl
  · simp [h, rowDoesNetwork]

/-- Witness for C1 at a fully populated concrete row with its directory
present on disk. -/
theorem claim_C1_existing_dir_skips_network_witness :
    rowDoesNetwork (processCsvRow sampleRow (fun _ => true)) = false :=
  claim_C1_existing_dir_skips_network sampleRow (fun _ => true) rfl

/-! ## C2 — share record CSV merge -/

/-- C2: for every merge-and-write, the rewritten rows are the new rows
first, in their given order, followed by exactly the previously existing
rows whose stripped post URL is not among the new rows' URLs, carried
forward unchanged; any output row whose URL overlaps the new set comes
from the new rows; and for an existing cache of 10 rows and a run
producing 3 rows of which 2 overlap existing identifiers, the output has
exactly 11 rows. -/
theorem claim_C2_merge_new_first_carry_forward (rows existing : List MetaRow) :
    (mergedRows rows existing).take rows.length = rows ∧
    (mergedRows rows existing).drop rows.length
      = existing.filter (fun r => decide (pyStrip r.post_url ∉ newUrlSet rows)) ∧
    (∀ r ∈ mergedRows rows existing, pyStrip r.post_url ∈ newUrlSet rows → r ∈ rows) ∧
    (rows.length = 3 → existing.length = 10 →
      (existing.filter (fun r => decide (pyStrip r.post_url ∈ newUrlSet rows))).length = 2 →
      (mergedRows rows existing).length = 11) := by
  refine ⟨List.take_left rows _, List.drop_left rows _, ?_, ?_⟩
  · intro r hr hmem
    rcases List.mem_append.mp hr with hnew | hold
    · exact hnew
    · have hdec := (List.mem_filter.mp hold).2
      simp only [decide_eq_true_eq] at hdec
      exact absurd hmem hdec
  · intro h3 h10 h2
    have hsplit := length_filter_split existing
      (fun r => decide (pyStrip r.post_url ∈ newUrlSet rows))
    have hnot : existing.filter (fun r => decide (pyStrip r.post_url ∉ newUrlSet rows))
        = existing.filter (fun r => !(decide (pyStrip r.post_url ∈ newUrlSet rows))) := by
      simp [decide_not]
    unfold mergedRows
    rw [List.length_append, h3, hnot]
    omega

/-- Witness for C2 on concrete data: ten existing rows, three new rows,
two of whose URLs overlap; the merged output has exactly eleven rows. -/
theorem claim_C2_merge_new_first_carry_forward_witness :
    (mergedRows demoNewRows demoExistingRows).length = 11 :=
  (claim_C2_merge_new_first_carry_forward demoNewRows demoExistingRows).2.2.2
    rfl rfl (by decide)

/-! ## C6 — no link means empty result; password implies link -/

/-- C6: for every text input, when `_extract_from_text` finds no share
link it returns an empty link together with an empty password (the
password search is never even entered), and this is an ordinary return
value, not an exception; and a non-empty password is never returned
without a link. -/
theorem claim_C6_empty_link_empty_password (text : List Char) :
    ((extractFromText text).1 = none → extractFromText text = (none, none)) ∧
    ((extractFromText text).2.isSome → (extractFromText text).1.isSome) := by
  cases h : urlSearch text with
  | none => simp [extractFromText, h]
  | some l => simp [extractFromText, h]

/-- Witness for C6 at a concrete linkless text. -/
theorem claim_C6_empty_link_empty_password_witness :
    extractFromText "hello world".data = (none, none) :=
  (claim_C6_empty_link_empty_password "hello world".data).1 (by decide)

/-! ## C3 — password pattern order -/

/-- C3: for every text, the four password patterns are tried in their
fixed order: the first pattern with a match anywhere supplies the
password as its first non-empty capture group, and later patterns are
never consulted; concretely, text carrying both the labeled extraction
code `提取码: ABC123` (the spec's bilingual "extraction code" label) and
a generic `passcode: XYZ789` yields the link and the password `ABC123`. -/
theorem claim_C3_pwd_pattern_order (text : List Char) :
    (∀ gs, scanFirst pwdPat1At text = some gs →
      pwdSearch text = firstNonEmptyGroup gs) ∧
    (scanFirst pwdPat1At text = none → ∀ gs, scanFirst pwdPat2At text = some gs →
      pwdSearch text = firstNonEmptyGroup gs) ∧
    (scanFirst pwdPat1At text = none → scanFirst pwdPat2At text = none →
      ∀ gs, scanFirst pwdPat3At text = some gs →
      pwdSearch text = firstNonEmptyGroup gs) ∧
    (scanFirst pwdPat1At text = none → scanFirst pwdPat2At text = none →
      scanFirst pwdPat3At text = none → ∀ gs, scanFirst pwdPat4At text = some gs →
      pwdSearch text = firstNonEmptyGroup gs) ∧
    extractFromTextS exampleText = (some "https://minas.mihoyo.com/d/abc", some "ABC123") := by
  refine ⟨?_, ?_, ?_, ?_, by decide⟩
  · intro gs h1
    simp [pwdSearch, pwdPatterns, List.findSome?_cons, h1]
  · intro h1 gs h2
    simp [pwdSearch, pwdPatterns, List.findSome?_cons, h1, h2]
  · intro h1 h2 gs h3
    simp [pwdSearch, pwdPatterns, List.findSome?_cons, h1, h2, h3]
  · intro h1 h2 h3 gs h4
    simp [pwdSearch, pwdPatterns, List.findSome?_cons, h1, h2, h3, h4]

/-- Witness for C3: on text whose first matching pattern is the second
(密码, the "password" label), the returned password is that match's
first non-empty capture group. -/
theorem claim_C3_pwd_pattern_order_witness :
    pwdSearch exampleText2.data = firstNonEmptyGroup [some "abc9".data] :=
  (claim_C3_pwd_pattern_order exampleText2.data).2.1 (by decide)
    [some "abc9".data] (by decide)

/-! ## C5 — API payload priority over DOM and raw text -/

/-- C5: in the per-row pipeline of `run`, the DOM stage is entered
exactly when the link is still missing after the API stage, and the
raw-text stage exactly when the link or the password is still missing
after the DOM stage; in particular, for every target URL from which the
structured-API post id can be derived, a non-empty API link is the link
taken and the DOM hyperlink stage is never consulted. -/
theorem claim_C5_api_payload_priority
    (url cl cp al ap sl sp tl tp : String) :
    ((runRowPipeline url cl cp al ap sl sp tl tp).soupFetched = true ↔
      (apiStageResult cl cp (extractPostId url).isSome al ap).1 = "") ∧
    ((runRowPipeline url cl cp al ap sl sp tl tp).textConsulted = true ↔
      ((soupStageResult (apiStageResult cl cp (extractPostId url).isSome al ap).1
          (apiStageResult cl cp (extractPostId url).isSome al ap).2 sl sp).1 = "" ∨
       (soupStageResult (apiStageResult cl cp (extractPostId url).isSome al ap).1
          (apiStageResult cl cp (extractPostId url).isSome al ap).2 sl sp).2 = "")) ∧
    ((extractPostId url).isSome = true → al ≠ "" →
      (runRowPipeline url cl cp al ap sl sp tl tp).link = al ∧
      (runRowPipeline url cl cp al ap sl sp tl tp).soupFetched = false) := by
  refine ⟨?_, ?_, ?_⟩
  · simp [runRowPipeline]
  · simp [runRowPipeline]
  · intro hid ha
    have h0 : apiStageResult cl cp (extractPostId url).isSome al ap = (al, pyOrS cp ap) := by
      rw [hid]
      unfold apiStageResult
      simp [ha]
    have h1 : soupStageResult al (pyOrS cp ap) sl sp = (al, pyOrS cp ap) := by
      unfold soupStageResult
      rw [if_neg ha]
    have h2 : (textStageResult al (pyOrS cp ap) tl tp).1 = al := by
      unfold textStageResult
      split
      · simp [pyOrS, ha]
      · rfl
    constructor
    · show (textStageResult
          (soupStageResult (apiStageResult cl cp (extractPostId url).isSome al ap).1
            (apiStageResult cl cp (extractPostId url).isSome al ap).2 sl sp).1
          (soupStageResult (apiStageResult cl cp (extractPostId url).isSome al ap).1
            (apiStageResult cl cp (extractPostId url).isSome al ap).2 sl sp).2 tl tp).1 = al
      rw [h0]
      dsimp only
      rw [h1]
      exact h2
    · show decide ((apiStageResult cl cp (extractPostId url).isSome al ap).1 = "") = false
      rw [h0]
      simp [ha]

/-- Witness for C5 with a derivable post id and a non-empty API link. -/
theorem claim_C5_api_payload_priority_witness :
    (runRowPipeline "https://www.miyoushe.com/zzz/article/12345" "" ""
      "https://minas.mihoyo.com/d/abc" "" "SL" "SP" "TL" "TP").link
        = "https://minas.mihoyo.com/d/abc" ∧
    (runRowPipeline "https://www.miyoushe.com/zzz/article/12345" "" ""
      "https://minas.mihoyo.com/d/abc" "" "SL" "SP" "TL" "TP").soupFetched = false :=
  (claim_C5_api_payload_priority "https://www.miyoushe.com/zzz/article/12345" "" ""
      "https://minas.mihoyo.com/d/abc" "" "SL" "SP" "TL" "TP").2.2
    (by decide) (by decide)

/-! ## C7 — archive deleted iff extraction succeeded -/

/-- C7: for every acquisition, the archive file is deleted exactly when
the extraction block completed without raising — whichever of the three
extraction targets (forced directory, output root for a single root,
fresh subdirectory) was selected; when the block raises, the exception
is caught (and logged) and the archive is left in place. -/
theorem claim_C7_archive_deleted_iff_extracted (zipOk : Bool) (members : List String)
    (forced : Bool) :
    (materialize zipOk members forced).archiveDeleted
      = (materialize zipOk members forced).extracted.isSome := by
  unfold materialize
  cases zipOk
  · rfl
  · cases h : extractPlan members forced <;> simp [h]

/-! ## C4 — flattening a single-root archive into a forced directory -/

/-- Moving over an empty child list changes nothing. -/
theorem applyMoves_nil (F : String) (p : List String) : applyMoves F [] p = p := by
  rcases p with _ | ⟨f, _ | ⟨x, rest⟩⟩
  · rfl
  · rfl
  · simp [applyMoves]

/-- One step of the flattening loop commutes into the combined move map
as long as the root name is not among the children. -/
theorem applyMoves_moveUp (F c : String) (cs : List String) (p : List String)
    (h : F ∉ c :: cs) :
    applyMoves F cs (moveUp F c p) = applyMoves F (c :: cs) p := by
  have hcF : c ≠ F := by
    intro e
    subst e
    exact h (List.mem_cons_self c cs)
  rcases p with _ | ⟨f, _ | ⟨x, rest⟩⟩
  · rfl
  · rfl
  · by_cases hf : f = F
    · subst hf
      by_cases hx : x = c
      · subst hx
        rcases rest with _ | ⟨y, r2⟩
        · simp [moveUp, applyMoves, hcF]
        · simp [moveUp, applyMoves, hcF]
      · by_cases hm : x ∈ cs <;>
          simp [moveUp, applyMoves, hx, hm, List.mem_cons]
    · simp [moveUp, applyMoves, hf]

/-- The flattening loop succeeds and acts as the combined move map when
the root name is not among the children. -/
theorem flattenLoop_eq_map (F : String) :
    ∀ cs : List String, F ∉ cs →
    ∀ paths : List (List String),
      flattenLoop F cs paths = some (paths.map (applyMoves F cs)) := by
  intro cs
  induction cs with
  | nil =>
    intro _ paths
    have hid : paths.map (applyMoves F []) = paths := by
      have h : applyMoves F [] = id := funext (fun p => applyMoves_nil F p)
      rw [h, List.map_id]
    rw [hid]
    rfl
  | cons c cs ih =>
    intro h paths
    have hcF : ¬ (c = F) := by
      intro e
      subst e
      exact h (List.mem_cons_self c cs)
    have hF : F ∉ cs := fun hm => h (List.mem_cons_of_mem c hm)
    simp only [flattenLoop, if_neg hcF]
    rw [ih hF (paths.map (moveUp F c)), List.map_map]
    have hfun : ∀ p ∈ paths, (applyMoves F cs ∘ moveUp F c) p = applyMoves F (c :: cs) p :=
      fun p _ => applyMoves_moveUp F c cs p h
    rw [List.map_congr_left hfun]

/-- Under a single root `F`, every extracted path starts with `F`. -/
theorem singleRoot_paths_shape (members : List String) (F : String)
    (hsr : singleRootName members = some F) :
    ∀ p ∈ zipEntryPaths members, ∃ rest, p = F :: rest := by
  have hmem : "" ∉ zipRoots members := by
    intro hm
    unfold singleRootName at hsr
    rw [if_pos hm] at hsr
    exact Option.noConfusion hsr
  have hrs : zipRoots members = [F] := by
    unfold singleRootName at hsr
    rw [if_neg hmem] at hsr
    rcases h : zipRoots members with _ | ⟨a, _ | ⟨b, t⟩⟩ <;> rw [h] at hsr
    · exact Option.noConfusion hsr
    · injection hsr with e
      rw [e]
    · exact Option.noConfusion hsr
  have hFne : F ≠ "" := by
    intro e
    apply hmem
    rw [hrs, e]
    exact List.mem_cons_self "" []
  intro p hp
  obtain ⟨hpm, hpne⟩ := List.mem_filter.mp hp
  obtain ⟨m, hm, hmp⟩ := List.mem_map.mp hpm
  simp only [decide_eq_true_eq] at hpne
  by_cases hme : m = ""
  · subst hme
    have hnil : p = [] := by
      rw [← hmp]
      decide
    exact absurd hnil hpne
  · have hcsome : ∃ r, memberRootContrib m = some r := by
      unfold memberRootContrib
      rw [if_neg hme]
      by_cases hcond : 1 < (entrySegs m).length ∧ (entrySegs m).headD "" ≠ ""
      · exact ⟨(entrySegs m).headD "", by rw [if_pos hcond]⟩
      · exact ⟨"", by rw [if_neg hcond]⟩
    obtain ⟨r, hr⟩ := hcsome
    have hrroots : r ∈ zipRoots members := by
      unfold zipRoots
      exact List.mem_dedup.mpr (List.mem_filterMap.mpr ⟨m, hm, hr⟩)
    have hrF : r = F := by
      rw [hrs] at hrroots
      exact List.mem_singleton.mp hrroots
    have hcond : 1 < (entrySegs m).length ∧ (entrySegs m).headD "" ≠ "" := by
      by_contra hc
      unfold memberRootContrib at hr
      rw [if_neg hme, if_neg hc] at hr
      injection hr with e
      exact hmem (by rw [← e] at hrroots; exact hrroots)
    have hhead : (entrySegs m).headD "" = F := by
      unfold memberRootContrib at hr
      rw [if_neg hme, if_pos hcond] at hr
      injection hr with e
      rw [← hrF, ← e]
    rcases hsegs : entrySegs m with _ | ⟨a, t⟩
    · rw [hsegs] at hcond
      exact absurd hcond.1 (by simp)
    · rw [hsegs] at hhead
      simp only [List.headD_cons] at hhead
      subst hhead
      refine ⟨t.filter (fun s => s ≠ ""), ?_⟩
      rw [← hmp]
      unfold entryPath
      rw [hsegs]
      simp only [List.filter_cons]
      rw [if_pos (by simpa using hFne)]

/-- Every second segment of an extracted path is a child of the root. -/
theorem mem_zipChildren_of_shape (members : List String) (p : List String)
    (hp : p ∈ zipEntryPaths members) (a b : String) (rest : List String)
    (hab : p = a :: b :: rest) : b ∈ zipChildren members := by
  unfold zipChildren
  refine List.mem_dedup.mpr (List.mem_filterMap.mpr ⟨p, hp, ?_⟩)
  rw [hab]
  rfl

/-- The combined move map followed by the inner-folder removal yields
exactly the contents that were under the root. -/
theorem flatten_result_eq (F : String) (ch : List String) (hF : F ∉ ch) :
    ∀ l : List (List String),
      (∀ p ∈ l, ∃ rest, p = F :: rest ∧ (∀ x r2, rest = x :: r2 → x ∈ ch)) →
      (l.map (applyMoves F ch)).filter (fun p => decide (p ≠ [F]))
        = l.filterMap (fun p =>
            match p with
            | f :: rest => if f = F ∧ rest ≠ [] then some rest else none
            | [] => none) := by
  intro l
  induction l with
  | nil => intro _; rfl
  | cons p l ih =>
    intro hall
    obtain ⟨rest, hp, hch⟩ := hall p (List.mem_cons_self p l)
    have hrec := ih (fun q hq => hall q (List.mem_cons_of_mem p hq))
    subst hp
    rcases rest with _ | ⟨x, r2⟩
    · have h1 : applyMoves F ch [F] = [F] := rfl
      rw [List.map_cons, h1, List.filter_cons_of_neg (by simp),
        List.filterMap_cons_none (by simp)]
      exact hrec
    · have hx : x ∈ ch := hch x r2 rfl
      have hxF : x ≠ F := fun e => hF (e ▸ hx)
      have h1 : applyMoves F ch (F :: x :: r2) = x :: r2 := by
        simp [applyMoves, hx]
      rw [List.map_cons, h1, List.filter_cons_of_pos (by simp [hxF]), List.filterMap_cons]
      dsimp only
      rw [if_pos ⟨rfl, List.cons_ne_nil x r2⟩]
      dsimp only
      rw [hrec]

/-- C4 (amended): for every archive whose entries all share exactly one
non-empty top-level folder name `F`, provided the folder `F` has no
immediate child itself named `F`, extracting with a forced target `T`
succeeds and leaves `T` containing exactly the contents that were under
`F`, with no `T/F` subdirectory remaining. -/
theorem claim_C4_flatten_single_root (members : List String) (F : String)
    (hsr : singleRootName members = some F) (hch : F ∉ zipChildren members) :
    (materialize true members true).extracted
        = some (ExtractTargetKind.forcedDir, contentsUnder F members) ∧
    ∀ q ∈ contentsUnder F members, q.head? ≠ some F := by
  have hshape := singleRoot_paths_shape members F hsr
  have hall : ∀ p ∈ zipEntryPaths members, ∃ rest, p = F :: rest ∧
      (∀ x r2, rest = x :: r2 → x ∈ zipChildren members) := by
    intro p hp
    obtain ⟨rest, hrest⟩ := hshape p hp
    exact ⟨rest, hrest, fun x r2 hxr =>
      mem_zipChildren_of_shape members p hp F x r2 (by rw [hrest, hxr])⟩
  have hflat := flattenLoop_eq_map F (zipChildren members) hch (zipEntryPaths members)
  have hres := flatten_result_eq F (zipChildren members) hch (zipEntryPaths members) hall
  constructor
  · unfold materialize extractPlan
    rw [if_pos rfl, hsr]
    dsimp only
    rw [hflat]
    dsimp only
    unfold contentsUnder
    rw [← hres]
    rfl
  · intro q hq
    unfold contentsUnder at hq
    obtain ⟨p, hp, hpq⟩ := List.mem_filterMap.mp hq
    obtain ⟨rest, hrest, hch2⟩ := hall p hp
    subst hrest
    rcases rest with _ | ⟨x, r2⟩
    · simp at hpq
    · have hx : x ∈ zipChildren members := hch2 x r2 rfl
      have hxF : x ≠ F := fun e => hch (e ▸ hx)
      have hq2 : q = x :: r2 := by
        simp at hpq
        exact hpq.symm
      rw [hq2]
      simp [hxF]

/-- Witness for C4 on a concrete single-root archive. -/
theorem claim_C4_flatten_single_root_witness :
    (materialize true demoMembers true).extracted
      = some (ExtractTargetKind.forcedDir, contentsUnder "F" demoMembers) :=
  (claim_C4_flatten_single_root demoMembers "F" (by decide) (by decide)).1

/-- C4 counterexample: the archive with the single entry `F/F/x` has the
single root `F`, yet extraction into a forced target raises (the
flattening move's destination `T/F` already exists), so the extraction
result is not the contents under `F` — on disk `T/F` survives and the
archive is kept. -/
theorem claim_C4_counterexample :
    singleRootName ["F/F/x"] = some "F" ∧
    (materialize true ["F/F/x"] true).extracted = none ∧
    (materialize true ["F/F/x"] true).archiveDeleted = false ∧
    (materialize true ["F/F/x"] true).extracted
      ≠ some (ExtractTargetKind.forcedDir, contentsUnder "F" ["F/F/x"]) := by
  refine ⟨by decide, by decide, by decide, by decide⟩

/-! ## C8 — progress percent computation and bounds -/

/-- A sequence started from a just-printed percent never reprints that
percent first. -/
theorem pollRun_head_ne (rs : List ZipResp) :
    ∀ x : Nat, (pollRun (some x) rs).head? ≠ some x := by
  induction rs with
  | nil => intro x; simp [pollRun]
  | cons r rs ih =>
    intro x
    by_cases hx : pollPct r = x
    · have hemit : (if (some x : Option Nat) = some (pollPct r) then ([] : List Nat)
          else [pollPct r]) = [] := by
        rw [if_pos (by rw [hx])]
      simp only [pollRun, hemit]
      by_cases ht : pollTerminal r = true
      · rw [if_pos ht]
        simp
      · rw [if_neg ht]
        rw [List.nil_append, hx]
        exact ih x
    · have hemit : (if (some x : Option Nat) = some (pollPct r) then ([] : List Nat)
          else [pollPct r]) = [pollPct r] := by
        rw [if_neg (fun e => hx (Option.some.inj e).symm)]
      simp only [pollRun, hemit]
      by_cases ht : pollTerminal r = true
      · rw [if_pos ht]
        simp [hx]
      · rw [if_neg ht]
        simp [hx]

/-- Consecutive printed percents always differ. -/
theorem pollRun_chain (rs : List ZipResp) :
    ∀ last : Option Nat, List.Chain' (fun a b => a ≠ b) (pollRun last rs) := by
  induction rs with
  | nil => intro last; simp [pollRun]
  | cons r rs ih =>
    intro last
    simp only [pollRun]
    by_cases he : last = some (pollPct r)
    · rw [if_pos he]
      by_cases ht : pollTerminal r = true
      · rw [if_pos ht]
        simp
      · rw [if_neg ht]
        rw [List.nil_append]
        exact ih (some (pollPct r))
    · rw [if_neg he]
      by_cases ht : pollTerminal r = true
      · rw [if_pos ht]
        simp
      · rw [if_neg ht]
        rw [List.singleton_append]
        refine List.chain'_cons'.mpr ⟨?_, ih (some (pollPct r))⟩
        intro b hb
        intro e
        exact pollRun_head_ne rs (pollPct r) (by rw [← e] at hb; exact hb)

/-- Every printed percent is the percent of some response in the list. -/
theorem pollRun_mem_pct (rs : List ZipResp) :
    ∀ (last : Option Nat) (p : Nat), p ∈ pollRun last rs →
      ∃ r ∈ rs, p = pollPct r := by
  induction rs with
  | nil => intro last p hp; simp [pollRun] at hp
  | cons r rs ih =>
    intro last p hp
    simp only [pollRun] at hp
    by_cases he : last = some (pollPct r)
    · rw [if_pos he] at hp
      by_cases ht : pollTerminal r = true
      · rw [if_pos ht] at hp
        simp at hp
      · rw [if_neg ht, List.nil_append] at hp
        obtain ⟨q, hq, hpq⟩ := ih (some (pollPct r)) p hp
        exact ⟨q, List.mem_cons_of_mem r hq, hpq⟩
    · rw [if_neg he] at hp
      by_cases ht : pollTerminal r = true
      · rw [if_pos ht] at hp
        exact ⟨r, List.mem_cons_self r rs, List.mem_singleton.mp hp⟩
      · rw [if_neg ht, List.singleton_append] at hp
        rcases hp with _ | hp'
        · exact ⟨r, List.mem_cons_self r rs, rfl⟩
        · next hp' =>
          obtain ⟨q, hq, hpq⟩ := ih (some (pollPct r)) p hp'
          exact ⟨q, List.mem_cons_of_mem r hq, hpq⟩

/-- C8 (amended): the percent of each poll response is the floor of
`zipped * 100 / total` when the total is nonzero and `0` otherwise; a
progress line is printed only when the percent changes (consecutive
printed values differ, and the first never repeats the previous value);
and when every response reports `zipped ≤ total`, no printed percent
exceeds 100. (Without that proviso a response with `zipped > total` is
printed as its floor percent above 100 before the completion check stops
the loop — see the counterexample.) -/
theorem claim_C8_poll_percent_reporting (r : ZipResp) (last : Option Nat)
    (rs : List ZipResp) :
    (r.total ≠ 0 → pollPct r = Nat.floor ((r.zipped * 100 : ℚ) / (r.total : ℚ))) ∧
    (r.total = 0 → pollPct r = 0) ∧
    List.Chain' (fun a b => a ≠ b) (pollRun last rs) ∧
    (∀ x : Nat, (pollRun (some x) rs).head? ≠ some x) ∧
    ((∀ q ∈ rs, q.zipped ≤ q.total) → ∀ p ∈ pollRun last rs, p ≤ 100) := by
  refine ⟨?_, ?_, pollRun_chain rs last, pollRun_head_ne rs, ?_⟩
  · intro ht
    unfold pollPct
    rw [if_pos ht]
    have hcast : ((r.zipped * 100 : ℚ)) = (((r.zipped * 100 : Nat) : ℚ)) := by
      push_cast
      ring
    rw [hcast, Nat.floor_div_eq_div]
  · intro ht
    unfold pollPct
    rw [if_neg (by rw [ht]; exact fun h => h rfl)]
  · intro hzt p hp
    obtain ⟨q, hq, hpq⟩ := pollRun_mem_pct rs last p hp
    rw [hpq]
    unfold pollPct
    by_cases ht : q.total ≠ 0
    · rw [if_pos ht]
      calc q.zipped * 100 / q.total ≤ q.total * 100 / q.total :=
              Nat.div_le_div_right (Nat.mul_le_mul_right 100 (hzt q hq))
        _ = 100 := Nat.mul_div_cancel_left 100 (Nat.pos_of_ne_zero ht)
    · rw [if_neg ht]
      exact Nat.zero_le 100

/-- Witness for C8 on a two-step polling sequence with consistent
counts: the printed percent stays within bounds. -/
theorem claim_C8_poll_percent_reporting_witness :
    pollPct (ZipResp.mk 2 4 0 0) ≤ 100 :=
  (claim_C8_poll_percent_reporting (ZipResp.mk 2 4 0 0) none
      [ZipResp.mk 2 4 0 0, ZipResp.mk 4 4 0 0]).2.2.2.2
    (by decide) (pollPct (ZipResp.mk 2 4 0 0)) (by decide)

/-- C8 counterexample: a poll response reporting `zipped = 5` of
`total = 4` is printed as 125 percent — the observed percent exceeds
100 — before the completion check ends the job. -/
theorem claim_C8_counterexample :
    pollRun none [ZipResp.mk 5 4 0 0] = [125] ∧ ¬ (125 ≤ 100) := by
  refine ⟨by decide, by decide⟩
